import Mathlib

/-
Shallow embedding of the Yunii spin-the-wheel backend (src/server.js).

The repository holds two revisions of the same Express server: the first
revision issues fixed coupon codes (NOEL5/NOEL10/NOEL20) for the discount
prizes, the second issues coupon codes through the Shopify admin API
(price rule + discount code).  The core draw logic (weight table,
weightedRandom, the stock-aware retry loop, eligibility gate, spins
insert, stock decrement) is identical in both revisions.

Modelling choices:
  - JS numbers that carry random draws and weights are modelled as ℚ
    (Math.random() * total yields a real in [0, total)).
  - Timestamps are milliseconds since epoch (ℕ); the calendar date used
    by Date.toDateString() is modelled as the day index t / 86400000
    (server-local day boundary).
  - SQL NULL stock is Option Int with none for NULL.
  - The do/while retry loop runs at most 11 iterations (every iteration
    either breaks or increments `tries`, and `tries > 10` breaks), so it
    is embedded structurally with a fuel argument; fuel 11 at tries 0 is
    exactly the source loop, and the fuel-exhaustion branch returns none
    (proved unreachable from the canonical entry point).
  - The external Shopify calls of the second revision are an oracle
    `CouponResult`: `thrown` models a rejected fetch / JSON parse error
    (the exception propagates to the catch block), `noCode` models a
    parsed response without the expected fields, `code c` models both
    calls succeeding with discount code `c`.
-/

namespace Yunii

/-- JS `String.prototype.startsWith`, modelled on the character list of the
Lean `String`. -/
def strStartsWith (s pre : String) : Bool :=
  pre.data.isPrefixOf s.data

/-- One entry of the static weight table `PRIZE_CONFIG`:
`{ value: '...', weight: n }`. -/
structure ConfEntry where
  value : String
  weight : ℚ
deriving DecidableEq

/-- The static weight table of src/server.js (identical in both revisions). -/
def PRIZE_CONFIG : List ConfEntry :=
  [⟨"nothing", 15⟩, ⟨"-5%", 30⟩, ⟨"-10%", 25⟩, ⟨"-20%", 15⟩,
   ⟨"CADEAU1", 8⟩, ⟨"CADEAU2", 7⟩]

/-- The `for (const p of list) { if (r < p.weight) return p; r -= p.weight; }`
loop body of `weightedRandom`. -/
def subWalk : ℚ → List ConfEntry → Option ConfEntry
  | _, [] => none
  | r, p :: rest => if r < p.weight then some p else subWalk (r - p.weight) rest

/-- `weightedRandom(list)` of src/server.js, with the random draw
`r = Math.random() * total` passed explicitly.  The trailing
`return list[list.length - 1]` is the `getLast?` fallback; on the empty
list the JS function returns `undefined`, modelled as `none`. -/
def weightedRandom (list : List ConfEntry) (r : ℚ) : Option ConfEntry :=
  match subWalk r list with
  | some p => some p
  | none => list.getLast?

/-- `list.reduce((s, p) => s + p.weight, 0)` of `weightedRandom`. -/
def totalWeight (list : List ConfEntry) : ℚ :=
  list.foldl (fun s p => s + p.weight) 0

/-- Reference selection written from the spec words (§4.3 step 1):
walk the cumulative distribution and select the first entry whose
cumulative weight exceeds the draw value.  `acc` is the cumulative weight
of the entries already passed. -/
def specCumulativeSelect : List ConfEntry → ℚ → ℚ → Option ConfEntry
  | [], _, _ => none
  | p :: rest, acc, r =>
    if r < acc + p.weight then some p else specCumulativeSelect rest (acc + p.weight) r

/-- One row of the `prizes` table as fetched by
`SELECT value, name, stock FROM prizes`; `stock` is `none` for SQL NULL. -/
structure DbPrize where
  value : String
  name : String
  stock : Option Int
deriving DecidableEq

/-- `new Map(dbPrizes.map(p => [p.value, p])).get(v)`: with duplicate keys a
JS `Map` keeps the last entry, hence the lookup on the reversed list. -/
def prizeMapGet (catalog : List DbPrize) (v : String) : Option DbPrize :=
  catalog.reverse.find? (fun p => p.value == v)

/-- The `dbPrize.stock !== null && dbPrize.stock <= 0` test of the retry
loop. -/
def stockExhausted : Option Int → Bool
  | none => false
  | some s => decide (s ≤ 0)

/-- The `chosen` record built by the draw loop. -/
structure Chosen where
  value : String
  name : String
deriving DecidableEq

/-- The `do { ... } while (!chosen)` retry loop of POST /spin.  `rs i` is the
random draw consumed by iteration `i`, `tries` the retry counter.  Every
iteration either breaks or increments `tries`, and `tries > 10` breaks, so
from the canonical entry (`fuel = 11`, `tries = 0`) the fuel never runs
out; the `fuel = 0` branch and the `weightedRandom = none` branch (empty
weight table, where the JS would throw a TypeError) both return `none`. -/
def spinDraw (config : List ConfEntry) (catalog : List DbPrize) (rs : ℕ → ℚ) :
    ℕ → ℕ → ℕ → Option Chosen
  | 0, _, _ => none
  | fuel + 1, i, tries =>
    match weightedRandom config (rs i) with
    | none => none
    | some conf =>
      match prizeMapGet catalog conf.value with
      | none => some ⟨"nothing", "Rien"⟩
      | some dbPrize =>
        if strStartsWith conf.value "CADEAU" && stockExhausted dbPrize.stock then
          if tries + 1 > 10 then some ⟨"nothing", "Rien"⟩
          else spinDraw config catalog rs fuel (i + 1) (tries + 1)
        else some ⟨conf.value, dbPrize.name⟩

/-- The draw loop as entered by POST /spin: `tries = 0`, eleven available
iterations (the source loop breaks no later than its 11th iteration). -/
def drawPrize (config : List ConfEntry) (catalog : List DbPrize) (rs : ℕ → ℚ) :
    Option Chosen :=
  spinDraw config catalog rs 11 0 0

/-- Does the random draw `r` select a weight-table entry that resolves to an
exhausted physical gift (the only case the loop retries)? -/
def exhaustedSample (config : List ConfEntry) (catalog : List DbPrize) (r : ℚ) : Bool :=
  match weightedRandom config r with
  | none => false
  | some conf =>
    match prizeMapGet catalog conf.value with
    | none => false
    | some dbPrize => strStartsWith conf.value "CADEAU" && stockExhausted dbPrize.stock

/-- The outcome one loop iteration produces when it does not retry: `none`
models the empty weight table (JS TypeError), a missing catalog entry
yields the "Rien" outcome, anything else is accepted as drawn. -/
def immediateOutcome (config : List ConfEntry) (catalog : List DbPrize) (r : ℚ) :
    Option Chosen :=
  match weightedRandom config r with
  | none => none
  | some conf =>
    match prizeMapGet catalog conf.value with
    | none => some ⟨"nothing", "Rien"⟩
    | some dbPrize => some ⟨conf.value, dbPrize.name⟩

/-- One row of the `spins` table: `INSERT INTO spins(user_id, prize_value,
spin_date)`; `spinDate` is milliseconds since epoch. -/
structure SpinRow where
  userId : String
  prizeValue : String
  spinDate : ℕ
deriving DecidableEq

/-- The persistent state the server reads and writes: the `spins` and
`prizes` tables. -/
structure ServerState where
  spins : List SpinRow
  prizes : List DbPrize
deriving DecidableEq

/-- The `SELECT spin_date FROM spins WHERE user_id = $1 ORDER BY spin_date
DESC LIMIT 1` query: the latest spin date recorded for the user, if any. -/
def lastSpinDate (spins : List SpinRow) (u : String) : Option ℕ :=
  ((spins.filter (fun row => row.userId == u)).map (fun row => row.spinDate)).max?

/-- Calendar date (server day boundary) of a millisecond timestamp, as
compared by `Date.toDateString()`. -/
def dayOf (t : ℕ) : ℕ :=
  t / 86400000

/-- `userCanPlayToday(userId)` of src/server.js: eligible iff no prior spin
or the latest spin's calendar date differs from today's. -/
def userCanPlayToday (spins : List SpinRow) (u : String) (now : ℕ) : Bool :=
  match lastSpinDate spins u with
  | none => true
  | some t => dayOf t != dayOf now

/-- `GREATEST(stock - 1, 0)` of the stock UPDATE.  PostgreSQL `GREATEST`
ignores NULL operands, so a NULL stock becomes 0. -/
def decStock : Option Int → Option Int
  | none => some 0
  | some n => some (max (n - 1) 0)

/-- `UPDATE prizes SET stock = GREATEST(stock - 1, 0) WHERE value = $1`. -/
def decPrize (prizes : List DbPrize) (v : String) : List DbPrize :=
  prizes.map (fun p => if p.value == v then { p with stock := decStock p.stock } else p)

/-- The two persistence effects of a successful spin, in source order:
append the spins row, then decrement the stock when the chosen value is a
physical gift (`startsWith('CADEAU')`). -/
def recordOutcome (st : ServerState) (u v : String) (now : ℕ) : ServerState :=
  let st1 : ServerState := { st with spins := st.spins ++ [⟨u, v, now⟩] }
  if strStartsWith v "CADEAU" then { st1 with prizes := decPrize st1.prizes v } else st1

/-- Is the value one of the three percentage-discount prizes? -/
def isDiscount (v : String) : Bool :=
  v == "-5%" || v == "-10%" || v == "-20%"

/-- The fixed coupon codes of the first revision: NOEL5 / NOEL10 / NOEL20
for the discount values, null otherwise. -/
def fixedCoupon (v : String) : Option String :=
  if v == "-5%" then some "NOEL5"
  else if v == "-10%" then some "NOEL10"
  else if v == "-20%" then some "NOEL20"
  else none

/-- Oracle for the second revision's Shopify round trips: `thrown` models a
rejected fetch or a JSON parse error (the exception reaches the catch
block), `noCode` a parsed response without `price_rule.id` or
`discount_code.code`, `code c` both calls succeeding. -/
inductive CouponResult where
  | thrown : CouponResult
  | noCode : CouponResult
  | code : String → CouponResult
deriving DecidableEq

/-- The coupon-issuance section of the second revision: only discount
values contact Shopify; `none` means the exception propagated, `some c`
means execution continues with couponCode `c`. -/
def couponV2 (v : String) (svc : CouponResult) : Option (Option String) :=
  if isDiscount v then
    match svc with
    | CouponResult.thrown => none
    | CouponResult.noCode => some none
    | CouponResult.code c => some (some c)
  else some none

/-- HTTP response of POST /spin: 400 with a message, 200 with the draw
outcome, or 500 from the catch block. -/
inductive SpinResponse where
  | badRequest : String → SpinResponse
  | okResp : String → String → Option String → SpinResponse
  | serverError : SpinResponse
deriving DecidableEq

/-- Message of the 400 response for a missing userId. -/
def msgLogin : String := "Il faut être connecté pour jouer."

/-- Message of the 400 response when the eligibility gate rejects. -/
def msgPlayed : String := "Tu as déjà joué aujourd\x27hui !"

/-- POST /spin of the first revision (fixed coupon codes).  `uid` is
`req.body.userId` (`none` when absent; the empty string is falsy in JS and
takes the same branch), `rs` the stream of random draws, `now` the server
time used by `NOW()` and `new Date()`. -/
def spinHandlerV1 (st : ServerState) (uid : Option String) (rs : ℕ → ℚ) (now : ℕ) :
    SpinResponse × ServerState :=
  match uid with
  | none => (SpinResponse.badRequest msgLogin, st)
  | some userId =>
    if userId = "" then (SpinResponse.badRequest msgLogin, st)
    else if userCanPlayToday st.spins userId now then
      match drawPrize PRIZE_CONFIG st.prizes rs with
      | none => (SpinResponse.serverError, st)
      | some chosen =>
        (SpinResponse.okResp chosen.value chosen.name (fixedCoupon chosen.value),
         recordOutcome st userId chosen.value now)
    else (SpinResponse.badRequest msgPlayed, st)

/-- POST /spin of the second revision (Shopify coupon issuance).  Note the
source order: the Shopify calls run before the spins INSERT, and a thrown
failure reaches the catch block (500) with nothing recorded. -/
def spinHandlerV2 (st : ServerState) (uid : Option String) (rs : ℕ → ℚ) (now : ℕ)
    (svc : CouponResult) : SpinResponse × ServerState :=
  match uid with
  | none => (SpinResponse.badRequest msgLogin, st)
  | some userId =>
    if userId = "" then (SpinResponse.badRequest msgLogin, st)
    else if userCanPlayToday st.spins userId now then
      match drawPrize PRIZE_CONFIG st.prizes rs with
      | none => (SpinResponse.serverError, st)
      | some chosen =>
        match couponV2 chosen.value svc with
        | none => (SpinResponse.serverError, st)
        | some couponCode =>
          (SpinResponse.okResp chosen.value chosen.name couponCode,
           recordOutcome st userId chosen.value now)
    else (SpinResponse.badRequest msgPlayed, st)

theorem totalWeight_shift (l : List ConfEntry) (a : ℚ) :
    l.foldl (fun s p => s + p.weight) a = a + totalWeight l := by
  induction l generalizing a with
  | nil => simp [totalWeight]
  | cons p rest ih =>
    simp only [totalWeight, List.foldl_cons] at *
    rw [ih (a + p.weight), ih (0 + p.weight)]
    ring

theorem totalWeight_cons (p : ConfEntry) (l : List ConfEntry) :
    totalWeight (p :: l) = p.weight + totalWeight l := by
  simp only [totalWeight, List.foldl_cons]
  rw [totalWeight_shift]
  ring_nf
  rw [totalWeight]

theorem totalWeight_nonneg (l : List ConfEntry) (h : ∀ p ∈ l, 0 ≤ p.weight) :
    0 ≤ totalWeight l := by
  induction l with
  | nil => simp [totalWeight]
  | cons p rest ih =>
    rw [totalWeight_cons]
    have hp := h p (List.mem_cons_self p rest)
    have hrest := ih (fun q hq => h q (List.mem_cons_of_mem p hq))
    linarith

theorem subWalk_eq_specCumulativeSelect (l : List ConfEntry) :
    ∀ acc r : ℚ, subWalk (r - acc) l = specCumulativeSelect l acc r := by
  induction l with
  | nil => intro acc r; rfl
  | cons p rest ih =>
    intro acc r
    simp only [subWalk, specCumulativeSelect]
    by_cases h : r < acc + p.weight
    · rw [if_pos (by linarith), if_pos h]
    · rw [if_neg (by intro hc; apply h; linarith), if_neg h]
      have : r - acc - p.weight = r - (acc + p.weight) := by ring
      rw [this, ih]

theorem specCumulativeSelect_isSome (l : List ConfEntry) :
    ∀ acc r : ℚ, acc ≤ r → r < acc + totalWeight l →
      (specCumulativeSelect l acc r).isSome = true := by
  induction l with
  | nil =>
    intro acc r h1 h2
    rw [totalWeight] at h2
    simp at h2
    exact absurd h1 (not_le.mpr h2)
  | cons p rest ih =>
    intro acc r h1 h2
    simp only [specCumulativeSelect]
    by_cases h : r < acc + p.weight
    · rw [if_pos h]; rfl
    · rw [if_neg h]
      refine ih (acc + p.weight) r (not_lt.mp h) ?_
      rw [totalWeight_cons] at h2
      linarith

theorem subWalk_none_of_total_le (l : List ConfEntry) :
    ∀ r : ℚ, (∀ p ∈ l, 0 < p.weight) → totalWeight l ≤ r → subWalk r l = none := by
  induction l with
  | nil => intro r _ _; rfl
  | cons p rest ih =>
    intro r hpos hle
    rw [totalWeight_cons] at hle
    have hrest : 0 ≤ totalWeight rest :=
      totalWeight_nonneg rest (fun q hq => le_of_lt (hpos q (List.mem_cons_of_mem p hq)))
    simp only [subWalk]
    rw [if_neg (by intro hc; linarith)]
    exact ih (r - p.weight) (fun q hq => hpos q (List.mem_cons_of_mem p hq)) (by linarith)

/-- C5: for every non-empty weight list with positive weights and every
draw value r in [0, totalWeight), the subtraction walk of
`weightedRandom` returns the same entry as the cumulative-distribution
reference selection of the spec (first entry whose cumulative weight
exceeds r, ties broken by list order, and it always selects some entry);
and once r reaches or overruns totalWeight, the last entry of the list is
returned as the fallback. -/
theorem c5_weightedRandom_refines_cumulative (list : List ConfEntry) (r : ℚ)
    (hne : list ≠ []) (hpos : ∀ p ∈ list, 0 < p.weight) :
    (0 ≤ r → r < totalWeight list →
      weightedRandom list r = specCumulativeSelect list 0 r
        ∧ (specCumulativeSelect list 0 r).isSome = true)
    ∧ (totalWeight list ≤ r → weightedRandom list r = some (list.getLast hne)) := by
  have hwalk : subWalk r list = specCumulativeSelect list 0 r := by
    have := subWalk_eq_specCumulativeSelect list 0 r
    rwa [sub_zero] at this
  constructor
  · intro h0 hlt
    have hsome : (specCumulativeSelect list 0 r).isSome = true :=
      specCumulativeSelect_isSome list 0 r h0 (by linarith)
    obtain ⟨p, hp⟩ := Option.isSome_iff_exists.mp hsome
    refine ⟨?_, hsome⟩
    rw [weightedRandom, hwalk, hp]
  · intro hge
    rw [weightedRandom, subWalk_none_of_total_le list r hpos hge,
      List.getLast?_eq_getLast list hne]

theorem c5_witness :
    weightedRandom PRIZE_CONFIG 50 = specCumulativeSelect PRIZE_CONFIG 0 50
      ∧ (specCumulativeSelect PRIZE_CONFIG 0 50).isSome = true := by
  refine (c5_weightedRandom_refines_cumulative PRIZE_CONFIG 50 (by decide) (by decide)).1
    (by norm_num) ?_
  norm_num [totalWeight, PRIZE_CONFIG]

/-- C4: `userCanPlayToday` returns true for a user with no recorded spin;
false when their latest spin falls on the same calendar day as now; true
when it falls on an earlier calendar day; and the comparison is by
calendar date, not a rolling 24-hour delta: a latest spin less than
24 hours old but on a different calendar day still yields true. -/
theorem c4_userCanPlayToday_calendar (spins : List SpinRow) (u : String) (now : ℕ) :
    (spins.filter (fun row => row.userId == u) = [] →
      userCanPlayToday spins u now = true)
    ∧ (∀ t, lastSpinDate spins u = some t → dayOf t = dayOf now →
        userCanPlayToday spins u now = false)
    ∧ (∀ t, lastSpinDate spins u = some t → dayOf t < dayOf now →
        userCanPlayToday spins u now = true)
    ∧ (∀ t, lastSpinDate spins u = some t → now - t < 86400000 →
        dayOf t ≠ dayOf now → userCanPlayToday spins u now = true) := by
  refine ⟨?_, ?_, ?_, ?_⟩
  · intro h
    simp [userCanPlayToday, lastSpinDate, h]
  · intro t ht hd
    simp [userCanPlayToday, ht, hd]
  · intro t ht hd
    simp [userCanPlayToday, ht]
    exact Nat.ne_of_lt hd
  · intro t ht _ hd
    simp [userCanPlayToday, ht]
    exact hd

theorem exhaustedSample_elim {config : List ConfEntry} {catalog : List DbPrize} {r : ℚ}
    (h : exhaustedSample config catalog r = true) :
    ∃ conf dbPrize, weightedRandom config r = some conf
      ∧ prizeMapGet catalog conf.value = some dbPrize
      ∧ (strStartsWith conf.value "CADEAU" && stockExhausted dbPrize.stock) = true := by
  cases hw : weightedRandom config r with
  | none => simp only [exhaustedSample, hw] at h; exact absurd h (by simp)
  | some conf =>
    cases hm : prizeMapGet catalog conf.value with
    | none => simp only [exhaustedSample, hw, hm] at h; exact absurd h (by simp)
    | some dbPrize =>
      simp only [exhaustedSample, hw, hm] at h
      exact ⟨conf, dbPrize, rfl, hm, h⟩

/-- C1: a physical-gift prize (value starting with CADEAU) whose catalog
stock is a non-null value ≤ 0 is never the winning outcome of the draw
loop: whatever the weight table, the random samples, the remaining fuel
and the retry counter, every outcome the loop returns has a different
value (exhausted-gift samples are retried or, at the cap, become the
"Rien" outcome). -/
theorem c1_exhausted_gift_never_won (config : List ConfEntry) (catalog : List DbPrize)
    (v : String) (p : DbPrize) (s : ℤ) (rs : ℕ → ℚ)
    (hv : strStartsWith v "CADEAU" = true)
    (hp : prizeMapGet catalog v = some p) (hs : p.stock = some s) (hs0 : s ≤ 0) :
    ∀ fuel i tries ch, spinDraw config catalog rs fuel i tries = some ch → ch.value ≠ v := by
  have hvne : v ≠ "nothing" := by
    intro hveq
    rw [hveq] at hv
    exact absurd hv (by decide)
  intro fuel
  induction fuel with
  | zero =>
    intro i tries ch h
    exact absurd h (by simp [spinDraw])
  | succ fuel ih =>
    intro i tries ch h
    simp only [spinDraw] at h
    split at h
    · exact absurd h (by simp)
    · rename_i conf hw
      split at h
      · simp only [Option.some.injEq] at h
        rw [← h]
        exact Ne.symm hvne
      · rename_i dbPrize hm
        split at h
        · rename_i hex
          split at h
          · simp only [Option.some.injEq] at h
            rw [← h]
            exact Ne.symm hvne
          · exact ih (i + 1) (tries + 1) ch h
        · rename_i hex
          simp only [Option.some.injEq] at h
          subst h
          intro hcv
          dsimp only at hcv
          rw [hcv, hp] at hm
          have hdb : p = dbPrize := by injection hm
          apply hex
          rw [hcv, hv, ← hdb]
          simp [stockExhausted, hs, hs0]

theorem c1_witness :
    (⟨"nothing", "Rien"⟩ : Chosen).value ≠ "CADEAU1" :=
  c1_exhausted_gift_never_won [⟨"CADEAU1", 8⟩] [⟨"CADEAU1", "Bubble Rush", some 0⟩]
    "CADEAU1" ⟨"CADEAU1", "Bubble Rush", some 0⟩ 0 (fun _ => 0)
    (by decide) (by decide) rfl (by decide) 11 0 0 ⟨"nothing", "Rien"⟩ (by decide)

theorem spinDraw_all_exhausted (config : List ConfEntry) (catalog : List DbPrize)
    (rs : ℕ → ℚ) :
    ∀ fuel i tries, fuel + tries = 11 → tries ≤ 10 →
      (∀ j, j < fuel → exhaustedSample config catalog (rs (i + j)) = true) →
      spinDraw config catalog rs fuel i tries = some ⟨"nothing", "Rien"⟩ := by
  intro fuel
  induction fuel with
  | zero =>
    intro i tries h11 h10 _
    exact absurd h11 (by omega)
  | succ fuel ih =>
    intro i tries h11 h10 hall
    have h0 := hall 0 (Nat.succ_pos fuel)
    rw [Nat.add_zero] at h0
    obtain ⟨conf, dbPrize, hw, hm, hex⟩ := exhaustedSample_elim h0
    simp only [spinDraw, hw, hm]
    rw [if_pos hex]
    by_cases hcap : tries + 1 > 10
    · rw [if_pos hcap]
    · rw [if_neg hcap]
      refine ih (i + 1) (tries + 1) (by omega) (by omega) ?_
      intro j hj
      have hs := hall (j + 1) (by omega)
      have harr : i + 1 + j = i + (j + 1) := by omega
      rw [harr]
      exact hs

theorem spinDraw_congr_samples (config : List ConfEntry) (catalog : List DbPrize)
    (rs rt : ℕ → ℚ) :
    ∀ fuel i tries, (∀ j, j < fuel → rs (i + j) = rt (i + j)) →
      spinDraw config catalog rs fuel i tries = spinDraw config catalog rt fuel i tries := by
  intro fuel
  induction fuel with
  | zero => intro i tries _; rfl
  | succ fuel ih =>
    intro i tries hagree
    have h0 : rs i = rt i := by
      have hz := hagree 0 (Nat.succ_pos fuel)
      rwa [Nat.add_zero] at hz
    simp only [spinDraw, h0]
    cases hw : weightedRandom config (rt i) with
    | none => rfl
    | some conf =>
      dsimp only
      cases hm : prizeMapGet catalog conf.value with
      | none => rfl
      | some dbPrize =>
        dsimp only
        by_cases hex : (strStartsWith conf.value "CADEAU" && stockExhausted dbPrize.stock) = true
        · rw [if_pos hex, if_pos hex]
          by_cases hcap : tries + 1 > 10
          · rw [if_pos hcap, if_pos hcap]
          · rw [if_neg hcap, if_neg hcap]
            apply ih
            intro j hj
            have hs := hagree (j + 1) (by omega)
            have harr : i + 1 + j = i + (j + 1) := by omega
            rw [harr]
            exact hs
        · rw [if_neg hex, if_neg hex]

/-- C3: the draw loop terminates for every catalog snapshot and sample
sequence because each iteration either returns or increments the retry
counter: an exhausted-gift sample below the cap recurses on the very same
weight table and catalog; eleven consecutive exhausted-gift samples from
the entry point (retry counter 0) exhaust the cap of 10 and yield the
"Rien" outcome; any sample that is not an exhausted gift ends the loop
immediately with its immediate outcome; and the outcome from the entry
point depends on at most the 11 samples i..i+10. -/
theorem c3_retry_cap_and_termination (config : List ConfEntry) (catalog : List DbPrize) :
    (∀ (rs : ℕ → ℚ) (fuel i tries : ℕ),
        exhaustedSample config catalog (rs i) = true → tries + 1 ≤ 10 →
        spinDraw config catalog rs (fuel + 1) i tries
          = spinDraw config catalog rs fuel (i + 1) (tries + 1))
    ∧ (∀ (rs : ℕ → ℚ) (i : ℕ),
        (∀ j, j ≤ 10 → exhaustedSample config catalog (rs (i + j)) = true) →
        spinDraw config catalog rs 11 i 0 = some ⟨"nothing", "Rien"⟩)
    ∧ (∀ (rs : ℕ → ℚ) (fuel i tries : ℕ),
        exhaustedSample config catalog (rs i) = false →
        spinDraw config catalog rs (fuel + 1) i tries = immediateOutcome config catalog (rs i))
    ∧ (∀ (rs rt : ℕ → ℚ) (i tries : ℕ),
        (∀ j, j ≤ 10 → rs (i + j) = rt (i + j)) →
        spinDraw config catalog rs 11 i tries = spinDraw config catalog rt 11 i tries) := by
  refine ⟨?_, ?_, ?_, ?_⟩
  · intro rs fuel i tries hsam hcap
    obtain ⟨conf, dbPrize, hw, hm, hex⟩ := exhaustedSample_elim hsam
    simp only [spinDraw, hw, hm]
    rw [if_pos hex, if_neg (by omega)]
  · intro rs i hall
    exact spinDraw_all_exhausted config catalog rs 11 i 0 rfl (by omega)
      (fun j hj => hall j (by omega))
  · intro rs fuel i tries hsam
    cases hw : weightedRandom config (rs i) with
    | none => simp only [spinDraw, immediateOutcome, hw]
    | some conf =>
      cases hm : prizeMapGet catalog conf.value with
      | none => simp only [spinDraw, immediateOutcome, hw, hm]
      | some dbPrize =>
        simp only [exhaustedSample, hw, hm] at hsam
        simp only [spinDraw, immediateOutcome, hw, hm]
        rw [if_neg (by simp [hsam])]
  · intro rs rt i tries hagree
    exact spinDraw_congr_samples config catalog rs rt 11 i tries
      (fun j hj => hagree j (by omega))

theorem c3_witness :
    spinDraw [⟨"CADEAU1", 8⟩] [⟨"CADEAU1", "Bubble Rush", some 0⟩] (fun _ => 0) 11 0 0
      = some ⟨"nothing", "Rien"⟩ := by
  have h0 : exhaustedSample [⟨"CADEAU1", 8⟩] [⟨"CADEAU1", "Bubble Rush", some 0⟩]
      (0 : ℚ) = true := by decide
  exact (c3_retry_cap_and_termination [⟨"CADEAU1", 8⟩]
    [⟨"CADEAU1", "Bubble Rush", some 0⟩]).2.1 (fun _ => 0) 0 (fun j _ => h0)

/-- C7: when the sampled weight-table entry has no matching row in the
catalog snapshot, the loop yields the "Rien" outcome at once: for every
remaining fuel, every retry-counter value and every sample sequence that
agrees at the current index, without error and without consuming a retry
or any further sample. -/
theorem c7_missing_prize_immediate_nothing (config : List ConfEntry) (catalog : List DbPrize)
    (rs rt : ℕ → ℚ) (conf : ConfEntry) (fuel i tries : ℕ)
    (hw : weightedRandom config (rs i) = some conf)
    (hm : prizeMapGet catalog conf.value = none)
    (hagree : rt i = rs i) :
    spinDraw config catalog rs (fuel + 1) i tries = some ⟨"nothing", "Rien"⟩
      ∧ spinDraw config catalog rt (fuel + 1) i tries = some ⟨"nothing", "Rien"⟩ := by
  constructor
  · simp only [spinDraw, hw, hm]
  · simp only [spinDraw, hagree, hw, hm]

theorem c7_witness :
    spinDraw [⟨"-5%", 30⟩] [] (fun _ => 0) 11 0 5 = some ⟨"nothing", "Rien"⟩ :=
  (c7_missing_prize_immediate_nothing [⟨"-5%", 30⟩] [] (fun _ => 0) (fun _ => 0)
    ⟨"-5%", 30⟩ 10 0 5 (by decide) (by decide) rfl).1

/-- C10: a prize is a physical gift exactly when its value starts with
CADEAU: a sampled non-CADEAU entry with a catalog row is accepted
unconditionally (its stock, even a number ≤ 0, is never consulted); a
sampled CADEAU entry whose catalog stock is NULL is accepted with no
stock check; and recording a non-CADEAU award leaves the prizes table
untouched. -/
theorem c10_cadeau_convention (config : List ConfEntry) (catalog : List DbPrize)
    (rs : ℕ → ℚ) (conf : ConfEntry) (p : DbPrize) (fuel i tries : ℕ)
    (st : ServerState) (u v : String) (now : ℕ) :
    (weightedRandom config (rs i) = some conf →
      prizeMapGet catalog conf.value = some p →
      strStartsWith conf.value "CADEAU" = false →
      spinDraw config catalog rs (fuel + 1) i tries = some ⟨conf.value, p.name⟩)
    ∧ (weightedRandom config (rs i) = some conf →
      prizeMapGet catalog conf.value = some p →
      p.stock = none →
      spinDraw config catalog rs (fuel + 1) i tries = some ⟨conf.value, p.name⟩)
    ∧ (strStartsWith v "CADEAU" = false →
      (recordOutcome st u v now).prizes = st.prizes) := by
  refine ⟨?_, ?_, ?_⟩
  · intro hw hm hng
    simp [spinDraw, hw, hm, hng]
  · intro hw hm hsn
    simp [spinDraw, hw, hm, hsn, stockExhausted]
  · intro hng
    simp [recordOutcome, hng]

theorem c10_witness :
    spinDraw [⟨"-5%", 30⟩] [⟨"-5%", "Promo", some 0⟩] (fun _ => 0) 11 0 0
      = some ⟨"-5%", "Promo"⟩
    ∧ (recordOutcome ⟨[], []⟩ "alice" "-5%" 7).prizes
        = (⟨[], []⟩ : ServerState).prizes := by
  have h := c10_cadeau_convention [⟨"-5%", 30⟩] [⟨"-5%", "Promo", some 0⟩] (fun _ => 0)
    ⟨"-5%", 30⟩ ⟨"-5%", "Promo", some 0⟩ 10 0 0 ⟨[], []⟩ "alice" "-5%" 7
  exact ⟨h.1 (by decide) (by decide) (by decide), h.2.2 (by decide)⟩

theorem c4_witness :
    userCanPlayToday [⟨"alice", "-5%", 86400000⟩] "alice" 86400001 = false
    ∧ userCanPlayToday [⟨"alice", "-5%", 172799999⟩] "alice" 172800010 = true := by
  constructor
  · exact (c4_userCanPlayToday_calendar [⟨"alice", "-5%", 86400000⟩] "alice"
      86400001).2.1 86400000 (by decide) (by decide)
  · exact (c4_userCanPlayToday_calendar [⟨"alice", "-5%", 172799999⟩] "alice"
      172800010).2.2.2 172799999 (by decide) (by decide) (by decide)

theorem find?_value_map (v w : String) (l : List DbPrize) :
    List.find? (fun p => p.value == v)
        (l.map (fun p => if p.value == w then { p with stock := decStock p.stock } else p))
      = (List.find? (fun p => p.value == v) l).map
          (fun p => if p.value == w then { p with stock := decStock p.stock } else p) := by
  induction l with
  | nil => rfl
  | cons p rest ih =>
    have hval : (if (p.value == w) = true
        then { p with stock := decStock p.stock } else p).value = p.value := by
      split <;> rfl
    have hval2 : ((if (p.value == w) = true
        then { p with stock := decStock p.stock } else p).value == v) = (p.value == v) := by
      rw [hval]
    cases hv : (p.value == v) with
    | true =>
      simp only [List.map_cons, List.find?, hval2, hv]
      rfl
    | false =>
      simp only [List.map_cons, List.find?, hval2, hv, ih]

theorem prizeMapGet_decPrize_self (l : List DbPrize) (v : String) (p : DbPrize)
    (h : prizeMapGet l v = some p) :
    prizeMapGet (decPrize l v) v = some { p with stock := decStock p.stock } := by
  unfold prizeMapGet decPrize at *
  rw [← List.map_reverse, find?_value_map, h]
  have hp := List.find?_some (p := fun q : DbPrize => q.value == v) h
  simp only at hp
  show some (if (p.value == v) = true then { p with stock := decStock p.stock } else p) = _
  rw [if_pos hp]

theorem recordOutcome_prizes_gift (st : ServerState) (u v : String) (now : ℕ)
    (hv : strStartsWith v "CADEAU" = true) :
    (recordOutcome st u v now).prizes = decPrize st.prizes v := by
  simp [recordOutcome, hv]

/-- C6: the stock decrement is floor-clamped at zero.  Starting from a
catalog entry of a gift value with non-negative stock s, after k recorded
awards of that value the entry's stock is max(s - k, 0): exactly s - k
while 0 < k ≤ s, and never a negative value for any k. -/
theorem c6_stock_floor_clamped (st : ServerState) (u v : String) (now : ℕ)
    (p : DbPrize) (s : ℤ) (hv : strStartsWith v "CADEAU" = true)
    (hp : prizeMapGet st.prizes v = some p) (hs : p.stock = some s) (h0 : 0 ≤ s) :
    ∀ k : ℕ, ∃ p',
      prizeMapGet ((fun t => recordOutcome t u v now)^[k] st).prizes v = some p'
      ∧ p'.stock = some (max (s - (k : ℤ)) 0)
      ∧ (0 < k → (k : ℤ) ≤ s → p'.stock = some (s - (k : ℤ)))
      ∧ (∀ t : ℤ, p'.stock = some t → 0 ≤ t) := by
  intro k
  induction k with
  | zero =>
    refine ⟨p, by simpa using hp, ?_, ?_, ?_⟩
    · rw [hs, Nat.cast_zero, sub_zero, max_eq_left h0]
    · intro hk _
      exact absurd hk (by omega)
    · intro t ht
      rw [hs] at ht
      injection ht with ht'
      omega
  | succ k ih =>
    obtain ⟨p', h1, h2, _, _⟩ := ih
    simp only [Function.iterate_succ_apply']
    refine ⟨{ p' with stock := decStock p'.stock }, ?_, ?_, ?_, ?_⟩
    · rw [recordOutcome_prizes_gift _ _ _ _ hv]
      exact prizeMapGet_decPrize_self _ v p' h1
    · show decStock p'.stock = _
      rw [h2]
      show some (max (max (s - (k : ℤ)) 0 - 1) 0) = _
      congr 1
      push_cast
      omega
    · intro _ hle
      show decStock p'.stock = _
      rw [h2]
      show some (max (max (s - (k : ℤ)) 0 - 1) 0) = _
      congr 1
      push_cast at *
      omega
    · intro t ht
      replace ht : decStock p'.stock = some t := ht
      rw [h2] at ht
      replace ht : some (max (max (s - (k : ℤ)) 0 - 1) 0) = some t := ht
      injection ht with ht'
      omega

theorem c6_witness :
    ∃ p', prizeMapGet ((fun t => recordOutcome t "alice" "CADEAU1" 5)^[3]
        ⟨[], [⟨"CADEAU1", "Bubble Rush", some 2⟩]⟩).prizes "CADEAU1" = some p'
      ∧ p'.stock = some 0 := by
  obtain ⟨p', h1, h2, _, _⟩ := c6_stock_floor_clamped
    ⟨[], [⟨"CADEAU1", "Bubble Rush", some 2⟩]⟩ "alice" "CADEAU1" 5
    ⟨"CADEAU1", "Bubble Rush", some 2⟩ 2 (by decide) (by decide) rfl (by decide) 3
  refine ⟨p', h1, ?_⟩
  rw [h2]
  decide

/-- C8: POST /spin answers 400 with the matching message both when userId
is missing from the body and when the eligibility gate rejects, in both
server revisions, and in both cases the state is returned unchanged: no
spins row is appended and no prize stock is modified. -/
theorem c8_bad_request_no_state_change (st : ServerState) (rs : ℕ → ℚ) (now : ℕ)
    (svc : CouponResult) (u : String) :
    (spinHandlerV1 st none rs now = (SpinResponse.badRequest msgLogin, st)
      ∧ spinHandlerV2 st none rs now svc = (SpinResponse.badRequest msgLogin, st))
    ∧ (u ≠ "" → userCanPlayToday st.spins u now = false →
        spinHandlerV1 st (some u) rs now = (SpinResponse.badRequest msgPlayed, st)
        ∧ spinHandlerV2 st (some u) rs now svc = (SpinResponse.badRequest msgPlayed, st)) := by
  refine ⟨⟨rfl, rfl⟩, ?_⟩
  intro hu hcp
  constructor
  · show (if u = "" then _ else _) = _
    rw [if_neg hu, if_neg (by simp [hcp])]
  · show (if u = "" then _ else _) = _
    rw [if_neg hu, if_neg (by simp [hcp])]

theorem c8_witness :
    spinHandlerV1 ⟨[⟨"alice", "nothing", 5⟩], []⟩ (some "alice") (fun _ => 0) 7
      = (SpinResponse.badRequest msgPlayed, ⟨[⟨"alice", "nothing", 5⟩], []⟩)
    ∧ spinHandlerV2 ⟨[], []⟩ none (fun _ => 0) 7 CouponResult.noCode
      = (SpinResponse.badRequest msgLogin, ⟨[], []⟩) := by
  constructor
  · exact ((c8_bad_request_no_state_change ⟨[⟨"alice", "nothing", 5⟩], []⟩ (fun _ => 0) 7
      CouponResult.noCode "alice").2 (by decide) (by decide)).1
  · exact (c8_bad_request_no_state_change ⟨[], []⟩ (fun _ => 0) 7
      CouponResult.noCode "bob").1.2

theorem fixedCoupon_not_discount (v : String) (h : isDiscount v = false) :
    fixedCoupon v = none := by
  simp only [isDiscount, Bool.or_eq_false_iff] at h
  obtain ⟨⟨h5, h10⟩, h20⟩ := h
  simp [fixedCoupon, h5, h10, h20]

theorem couponV2_not_discount (v : String) (svc : CouponResult)
    (h : isDiscount v = false) : couponV2 v svc = some none := by
  simp [couponV2, h]

/-- C9: a successful spin whose outcome value is not one of the three
percentage-discount values carries couponCode null, in both server
revisions: a non-null coupon code can only accompany a discount value. -/
theorem c9_coupon_only_for_discounts (st : ServerState) (uid : Option String)
    (rs : ℕ → ℚ) (now : ℕ) (svc : CouponResult) (v n : String) (c : Option String)
    (st2 : ServerState)
    (hok : spinHandlerV1 st uid rs now = (SpinResponse.okResp v n c, st2)
        ∨ spinHandlerV2 st uid rs now svc = (SpinResponse.okResp v n c, st2))
    (hnd : isDiscount v = false) : c = none := by
  rcases hok with h | h
  · unfold spinHandlerV1 at h
    cases uid with
    | none => simp at h
    | some userId =>
      dsimp only at h
      by_cases hu : userId = ""
      · rw [if_pos hu] at h
        simp at h
      · rw [if_neg hu] at h
        by_cases hcp : userCanPlayToday st.spins userId now = true
        · rw [if_pos hcp] at h
          split at h
          · simp at h
          · rename_i chosen hd
            simp only [Prod.mk.injEq, SpinResponse.okResp.injEq] at h
            obtain ⟨⟨hv, hn, hc⟩, _⟩ := h
            rw [← hc, hv]
            exact fixedCoupon_not_discount v hnd
        · rw [if_neg hcp] at h
          simp at h
  · unfold spinHandlerV2 at h
    cases uid with
    | none => simp at h
    | some userId =>
      dsimp only at h
      by_cases hu : userId = ""
      · rw [if_pos hu] at h
        simp at h
      · rw [if_neg hu] at h
        by_cases hcp : userCanPlayToday st.spins userId now = true
        · rw [if_pos hcp] at h
          split at h
          · simp at h
          · rename_i chosen hd
            split at h
            · simp at h
            · rename_i couponCode hc2
              simp only [Prod.mk.injEq, SpinResponse.okResp.injEq] at h
              obtain ⟨⟨hv, hn, hc⟩, _⟩ := h
              rw [hv] at hc2
              rw [couponV2_not_discount v svc hnd] at hc2
              injection hc2 with h2
              rw [← hc, ← h2]
        · rw [if_neg hcp] at h
          simp at h

theorem c9_witness : (none : Option String) = none := by
  have hd : spinHandlerV1 ⟨[], [⟨"nothing", "Rien", none⟩]⟩ (some "alice") (fun _ => 0) 3
      = (SpinResponse.okResp "nothing" "Rien" none,
         ⟨[⟨"alice", "nothing", 3⟩], [⟨"nothing", "Rien", none⟩]⟩) := by decide
  exact c9_coupon_only_for_discounts ⟨[], [⟨"nothing", "Rien", none⟩]⟩ (some "alice")
    (fun _ => 0) 3 CouponResult.noCode "nothing" "Rien" none
    ⟨[⟨"alice", "nothing", 3⟩], [⟨"nothing", "Rien", none⟩]⟩ (Or.inl hd) (by decide)

unseal Rat.sub in
/-- C2 counterexample: in the Shopify revision a thrown coupon-issuance
failure during a -10% draw does NOT complete the spin: the handler
answers 500 and the state is unchanged (no spins row is inserted), and
the coupon call was attempted before any insert — contradicting the
claim that the spin still returns ok:true with couponCode null, that a
DrawEvent is still inserted, and that the insert precedes the coupon
call. -/
theorem c2_counterexample :
    spinHandlerV2 ⟨[], [⟨"-10%", "Reduction 10", none⟩]⟩ (some "alice") (fun _ => 50) 0
        CouponResult.thrown
      = (SpinResponse.serverError, ⟨[], [⟨"-10%", "Reduction 10", none⟩]⟩) := by
  decide

/-- C2 (amended): in the Shopify revision the coupon-issuance call runs
before the spins insert, not after it.  When the Shopify responses parse
but lack the expected fields, the spin still completes: ok:true, the
drawn value and name, couponCode null, and the draw recorded; but when
the call throws (network error or malformed response body) the exception
reaches the catch block: the spin fails with 500 and no DrawEvent row and
no stock change. -/
theorem c2_coupon_failure_amended (st : ServerState) (u : String) (rs : ℕ → ℚ)
    (now : ℕ) (ch : Chosen) (hu : u ≠ "")
    (hel : userCanPlayToday st.spins u now = true)
    (hdraw : drawPrize PRIZE_CONFIG st.prizes rs = some ch)
    (hdisc : isDiscount ch.value = true) :
    spinHandlerV2 st (some u) rs now CouponResult.noCode
        = (SpinResponse.okResp ch.value ch.name none, recordOutcome st u ch.value now)
    ∧ spinHandlerV2 st (some u) rs now CouponResult.thrown
        = (SpinResponse.serverError, st) := by
  constructor <;>
  · show (if u = "" then _ else _) = _
    rw [if_neg hu, if_pos hel]
    simp [hdraw, couponV2, hdisc]

unseal Rat.sub in
theorem c2_witness :
    spinHandlerV2 ⟨[], [⟨"-10%", "Reduction 10", none⟩]⟩ (some "alice") (fun _ => 50) 0
        CouponResult.noCode
      = (SpinResponse.okResp "-10%" "Reduction 10" none,
         recordOutcome ⟨[], [⟨"-10%", "Reduction 10", none⟩]⟩ "alice" "-10%" 0) := by
  exact (c2_coupon_failure_amended ⟨[], [⟨"-10%", "Reduction 10", none⟩]⟩ "alice"
    (fun _ => 50) 0 ⟨"-10%", "Reduction 10"⟩ (by decide) (by decide) (by decide)
    (by decide)).1

end Yunii
